import Mathlib

/-!
Shallow embedding of the conversion-orchestration core of a desktop media
converter (the `ffmpeg.ts` module and its `main.ts` / `presets.ts`
call sites).  Pure data and decision logic is translated into executable
Lean functions; the effectful parts (child-process spawning, the file
system, the per-process registry) are modelled by explicit parameters and
explicit state records.  Theorems at the end of the file settle the frozen
claims about this code.
-/

namespace Conv2

/-- The `GPUVendor` from `presets.ts`: closed union of the five vendor tags. -/
inductive GPUVendor
  | nvidia
  | amd
  | intel
  | apple
  | cpu
deriving DecidableEq, Repr

/-- Host platform tag, modelling the values of `process.platform` the
decode planner distinguishes (`darwin`, `win32`, `linux`, anything else). -/
inductive Platform
  | darwin
  | win32
  | linux
  | other
deriving DecidableEq, Repr

/-- Codec family argument of `checkGPUEncoderSupport` (`h264 | h265 | av1`). -/
inductive CodecFamily
  | h264
  | h265
  | av1
deriving DecidableEq, Repr

/-- Preset category union from `presets.ts`. -/
inductive PresetCategory
  | av1
  | h264
  | h265
  | remux
  | audio
  | custom
deriving DecidableEq, Repr

/-- The `Preset` from `presets.ts` (the fields the conversion runner reads). -/
structure Preset where
  id : String
  name : String
  description : String
  category : PresetCategory
  extension : String
  getArgs : String → String → GPUVendor → List String

/-- The `GPUEncoderError.type` union. -/
inductive GPUErrorKind
  | encoder_unavailable
  | gpu_capability
  | driver_error
  | unknown
deriving DecidableEq, Repr

/-- The `GPUEncoderError` interface from `ffmpeg.ts`. -/
structure GPUEncoderError where
  type : GPUErrorKind
  message : String
  details : String
  suggestion : String
  canRetryWithCPU : Bool
  codec : Option String
  gpu : Option GPUVendor
deriving DecidableEq, Repr

/-- The `ConversionResult` interface from `ffmpeg.ts`. -/
structure ConversionResult where
  success : Bool
  outputPath : String
  error : Option String
deriving DecidableEq, Repr

/-- The `GPU_NAMES` table. -/
def gpuName : GPUVendor → String
  | .nvidia => "NVIDIA"
  | .amd => "AMD"
  | .intel => "Intel"
  | .apple => "Apple"
  | .cpu => "CPU"

/-- The `CODEC_NAMES` table, as an optional-valued map on codec-key strings. -/
def codecNames (c : String) : Option String :=
  if c = "h264" then some "H.264"
  else if c = "h265" then some "H.265/HEVC"
  else if c = "av1" then some "AV1"
  else none

/-- Key string of a codec family (the TS union values are these strings). -/
def codecKey : CodecFamily → String
  | .h264 => "h264"
  | .h265 => "h265"
  | .av1 => "av1"

/-- The `GPU_ENCODERS` table from `ffmpeg.ts`. -/
def gpuEncoders : CodecFamily → GPUVendor → String
  | .h264, .nvidia => "h264_nvenc"
  | .h264, .amd => "h264_amf"
  | .h264, .intel => "h264_qsv"
  | .h264, .apple => "h264_videotoolbox"
  | .h264, .cpu => "libx264"
  | .h265, .nvidia => "hevc_nvenc"
  | .h265, .amd => "hevc_amf"
  | .h265, .intel => "hevc_qsv"
  | .h265, .apple => "hevc_videotoolbox"
  | .h265, .cpu => "libx265"
  | .av1, .nvidia => "av1_nvenc"
  | .av1, .amd => "av1_amf"
  | .av1, .intel => "av1_qsv"
  | .av1, .apple => "libsvtav1"
  | .av1, .cpu => "libsvtav1"

/-- The `NVIDIA_DECODERS` table (keys are normalized codec-name strings). -/
def nvidiaDecoders (c : String) : Option String :=
  if c = "h264" then some "h264_cuvid"
  else if c = "hevc" then some "hevc_cuvid"
  else if c = "h265" then some "hevc_cuvid"
  else if c = "av1" then some "av1_cuvid"
  else if c = "vp9" then some "vp9_cuvid"
  else if c = "mpeg2video" then some "mpeg2_cuvid"
  else if c = "mpeg4" then some "mpeg4_cuvid"
  else none

/-- The `INTEL_DECODERS` table. -/
def intelDecoders (c : String) : Option String :=
  if c = "h264" then some "h264_qsv"
  else if c = "hevc" then some "hevc_qsv"
  else if c = "h265" then some "hevc_qsv"
  else if c = "av1" then some "av1_qsv"
  else if c = "vp9" then some "vp9_qsv"
  else none

/-- The `D3D11_DECODERS` table. -/
def d3d11Decoders (c : String) : Option String :=
  if c = "h264" then some "h264_d3d11va"
  else if c = "hevc" then some "hevc_d3d11va"
  else if c = "h265" then some "hevc_d3d11va"
  else if c = "av1" then some "av1_d3d11va"
  else if c = "vp9" then some "vp9_d3d11va"
  else none

/-- The `VIDEOTOOLBOX_DECODERS` table. -/
def videotoolboxDecoders (c : String) : Option String :=
  if c = "h264" then some "h264_videotoolbox"
  else if c = "hevc" then some "hevc_videotoolbox"
  else if c = "h265" then some "hevc_videotoolbox"
  else none

/-- JS string lowercasing restricted to the ASCII range used here
(`codec.toLowerCase()`). -/
def lowerStr (s : String) : String := String.mk (s.toList.map Char.toLower)

/-- The `normalizeCodec` from `ffmpeg.ts`: `undefined` and the empty string are
falsy and give `null`; otherwise lowercase and map the alias `h265` to
`hevc`. -/
def normalizeCodec : Option String → Option String
  | none => none
  | some c =>
    if c = "" then none
    else
      let normalized := lowerStr c
      if normalized = "h265" then some "hevc" else some normalized

/-- The `getHardwareDecodeArgs` from `ffmpeg.ts`.  The decoder-capability
query (`checkDecoderAvailable`, a membership test against the probed
decoder set) is passed in as `decAvail`; the Linux render-device check
(`fs.existsSync('/dev/dri/renderD128')`) as `vaapiDeviceExists`. -/
def getHardwareDecodeArgs (platform : Platform) (decAvail : String → Bool)
    (vaapiDeviceExists : Bool) (gpu : GPUVendor) (codec : Option String) :
    List String :=
  if gpu = .cpu then []
  else
    match normalizeCodec codec with
    | none => []
    | some normalized =>
      match platform with
      | .darwin =>
        if gpu ≠ .apple then []
        else
          match videotoolboxDecoders normalized with
          | some decoder =>
            if decAvail decoder then
              ["-hwaccel", "videotoolbox", "-c:v", decoder]
            else ["-hwaccel", "videotoolbox"]
          | none => ["-hwaccel", "videotoolbox"]
      | .win32 =>
        match gpu with
        | .nvidia =>
          match nvidiaDecoders normalized with
          | some decoder =>
            if decAvail decoder then
              ["-hwaccel", "cuda", "-hwaccel_output_format", "cuda", "-c:v", decoder]
            else []
          | none => []
        | .intel =>
          match intelDecoders normalized with
          | some decoder =>
            if decAvail decoder then
              ["-hwaccel", "qsv", "-hwaccel_output_format", "qsv", "-c:v", decoder]
            else []
          | none => []
        | .amd =>
          match d3d11Decoders normalized with
          | some decoder =>
            if decAvail decoder then
              ["-hwaccel", "d3d11va", "-hwaccel_output_format", "d3d11", "-c:v", decoder]
            else []
          | none => []
        | _ => []
      | .linux =>
        match gpu with
        | .nvidia =>
          match nvidiaDecoders normalized with
          | some decoder =>
            if decAvail decoder then
              ["-hwaccel", "cuda", "-hwaccel_output_format", "cuda", "-c:v", decoder]
            else []
          | none => []
        | .amd =>
          if vaapiDeviceExists ∧ normalized ∈ ["h264", "hevc", "av1", "vp9"] then
            ["-hwaccel", "vaapi", "-hwaccel_device", "/dev/dri/renderD128",
             "-hwaccel_output_format", "vaapi"]
          else []
        | .intel =>
          if vaapiDeviceExists ∧ normalized ∈ ["h264", "hevc", "av1", "vp9"] then
            ["-hwaccel", "vaapi", "-hwaccel_device", "/dev/dri/renderD128",
             "-hwaccel_output_format", "vaapi"]
          else []
        | _ => []
      | .other => []

/-- The decoder-name table `getHardwareDecodeArgs` consults for a given
platform/vendor pair (none when that code path looks up no decoder name,
as on the Linux VAAPI path and all fall-through paths). -/
def lookupDecoder : Platform → GPUVendor → String → Option String
  | .darwin, .apple, n => videotoolboxDecoders n
  | .win32, .nvidia, n => nvidiaDecoders n
  | .win32, .intel, n => intelDecoders n
  | .win32, .amd, n => d3d11Decoders n
  | .linux, .nvidia, n => nvidiaDecoders n
  | _, _, _ => none

/-- Substring occurrence of `needle` in a character list (JS
`String.prototype.includes`). -/
def includesChars (needle : List Char) : List Char → Bool
  | [] => needle.isEmpty
  | c :: t => needle.isPrefixOf (c :: t) || includesChars needle t

/-- JS `hay.includes(needle)`. -/
def jsIncludes (hay needle : String) : Bool :=
  includesChars needle.toList hay.toList

/-- The `codecName` computed at the top of `parseGPUError`:
`codec ? CODEC_NAMES[codec] || codec : 'video'` (the empty string is
falsy in JS). -/
def codecDisplayName (codec : Option String) : String :=
  match codec with
  | none => "video"
  | some c => if c = "" then "video" else (codecNames c).getD c

/-- The `parseGPUError` from `ffmpeg.ts`: the ordered pattern-match of
diagnostic output into a `GPUEncoderError`, or `none` when no rule
matches. -/
def parseGPUError (errorOutput : String) (gpu : GPUVendor)
    (codec : Option String) : Option GPUEncoderError :=
  let gName := gpuName gpu
  let cName := codecDisplayName codec
  if gpu = .nvidia ∧
      (jsIncludes errorOutput "No capable devices found" ∨
       jsIncludes errorOutput "Cannot load nvEncodeAPI" ∨
       jsIncludes errorOutput "nvEncodeAPICreateInstance failed") then
    some {
      type := .gpu_capability
      message := gName ++ " encoder initialization failed"
      details := "FFmpeg could not initialize the NVIDIA encoder. This usually means:\n• Your GPU doesn\x27t support hardware encoding\n• NVIDIA drivers are not installed or outdated\n• Another application is using the encoder"
      suggestion := "Update your NVIDIA drivers or try CPU encoding."
      canRetryWithCPU := true
      codec := codec
      gpu := some gpu }
  else if gpu = .nvidia ∧
      (jsIncludes errorOutput "not capable" ∨ jsIncludes errorOutput "unsupported") then
    some {
      type := .gpu_capability
      message := "Your " ++ gName ++ " GPU doesn\x27t support " ++ cName ++ " encoding"
      details :=
        if codec = some "av1" then
          "AV1 hardware encoding requires an RTX 40-series (Ada Lovelace) GPU or newer."
        else "Your GPU model doesn\x27t support hardware " ++ cName ++ " encoding."
      suggestion :=
        if codec = some "av1" then
          "Use H.264 or H.265 for hardware encoding, or switch to CPU for AV1."
        else "Try using CPU encoding instead."
      canRetryWithCPU := true
      codec := codec
      gpu := some gpu }
  else if gpu = .amd ∧ jsIncludes errorOutput "AMF" ∧
      (jsIncludes errorOutput "failed" ∨ jsIncludes errorOutput "error") then
    some {
      type := .gpu_capability
      message := gName ++ " encoder initialization failed"
      details := "FFmpeg could not initialize the AMD AMF encoder. This usually means:\n• Your GPU doesn\x27t support AMF encoding\n• AMD drivers are not installed or outdated"
      suggestion := "Update your AMD drivers or try CPU encoding."
      canRetryWithCPU := true
      codec := codec
      gpu := some gpu }
  else if gpu = .amd ∧
      (jsIncludes errorOutput "not supported" ∨ jsIncludes errorOutput "unsupported") then
    some {
      type := .gpu_capability
      message := "Your " ++ gName ++ " GPU doesn\x27t support " ++ cName ++ " encoding"
      details :=
        if codec = some "av1" then
          "AV1 hardware encoding requires an RX 7000 series (RDNA 3) GPU or newer."
        else "Your GPU model doesn\x27t support hardware " ++ cName ++ " encoding."
      suggestion :=
        if codec = some "av1" then
          "Use H.264 or H.265 for hardware encoding, or switch to CPU for AV1."
        else "Try using CPU encoding instead."
      canRetryWithCPU := true
      codec := codec
      gpu := some gpu }
  else if gpu = .intel ∧ jsIncludes errorOutput "QSV" ∧
      (jsIncludes errorOutput "failed" ∨ jsIncludes errorOutput "error" ∨
       jsIncludes errorOutput "not found") then
    some {
      type := .gpu_capability
      message := gName ++ " Quick Sync encoder not available"
      details := "FFmpeg could not initialize Intel Quick Sync Video. This usually means:\n• Your CPU/GPU doesn\x27t support Quick Sync\n• Intel graphics drivers are not installed\n• Quick Sync is disabled in BIOS"
      suggestion := "Ensure Intel graphics drivers are installed and Quick Sync is enabled in BIOS, or try CPU encoding."
      canRetryWithCPU := true
      codec := codec
      gpu := some gpu }
  else if gpu = .apple ∧ jsIncludes errorOutput "videotoolbox" ∧
      (jsIncludes errorOutput "failed" ∨ jsIncludes errorOutput "error") then
    some {
      type := .gpu_capability
      message := "VideoToolbox encoder not available"
      details := "FFmpeg could not initialize Apple VideoToolbox. This usually means:\n• Your Mac doesn\x27t support hardware encoding for this codec\n• macOS version doesn\x27t support this encoder"
      suggestion := "Try using CPU encoding instead."
      canRetryWithCPU := true
      codec := codec
      gpu := some gpu }
  else if jsIncludes errorOutput "Encoder" ∧ jsIncludes errorOutput "not found" then
    some {
      type := .encoder_unavailable
      message := cName ++ " encoder not found"
      details := "The selected encoder is not available in your FFmpeg installation."
      suggestion := "Try using CPU encoding instead."
      canRetryWithCPU := true
      codec := codec
      gpu := some gpu }
  else if jsIncludes errorOutput "DLL" ∨ jsIncludes errorOutput "LoadLibrary" then
    some {
      type := .driver_error
      message := "GPU driver or library error"
      details := "A required library failed to load. This usually indicates a driver issue."
      suggestion := "Update your GPU drivers and restart your computer."
      canRetryWithCPU := true
      codec := codec
      gpu := some gpu }
  else none

/-- Result record of `checkGPUEncoderSupport`. -/
structure EncoderSupport where
  available : Bool
  encoder : String
  error : Option GPUEncoderError
deriving DecidableEq, Repr

/-- The `checkGPUEncoderSupport` from `ffmpeg.ts`.  The encoder-capability
query (`checkEncoderAvailable`, a membership test against the probed
encoder set) is passed in as `encAvail`.  The `if (!encoder)` falsiness
guard of the source is kept as an empty-string test; the encoder table is
total for the typed codec/vendor arguments, so that branch is dead. -/
def checkGPUEncoderSupport (encAvail : String → Bool) (gpu : GPUVendor)
    (codec : CodecFamily) : EncoderSupport :=
  if gpu = .cpu then
    { available := true, encoder := gpuEncoders codec .cpu, error := none }
  else
    let encoder := gpuEncoders codec gpu
    if encoder = "" then
      { available := false
        encoder := ""
        error := some {
          type := .encoder_unavailable
          message := "No " ++ (codecNames (codecKey codec)).getD "" ++
            " encoder for " ++ gpuName gpu
          details := "The selected GPU vendor does not have a " ++ codecKey codec ++
            " encoder configured."
          suggestion := "Try using CPU encoding instead."
          canRetryWithCPU := true
          codec := some (codecKey codec)
          gpu := some gpu } }
    else if encAvail encoder then
      { available := true, encoder := encoder, error := none }
    else
      { available := false
        encoder := encoder
        error := some {
          type := .encoder_unavailable
          message := gpuName gpu ++ " " ++ (codecNames (codecKey codec)).getD "" ++
            " encoder not available"
          details := "The encoder \"" ++ encoder ++
            "\" was not found in your FFmpeg installation. This could mean:\n• Your GPU drivers don\x27t support this codec\n• FFmpeg wasn\x27t compiled with " ++
            gpuName gpu ++ " support\n• The required libraries are missing"
          suggestion :=
            if gpu = .nvidia ∧ codec = .av1 then
              "AV1 encoding requires an RTX 40-series GPU or newer. Try H.264 or H.265 instead, or use CPU encoding."
            else "Try using CPU encoding, or ensure your " ++ gpuName gpu ++
              " drivers are up to date."
          canRetryWithCPU := true
          codec := some (codecKey codec)
          gpu := some gpu } }

/-- The `['av1', 'h264', 'h265'].includes(category)` (used both by the
`start-conversion` handler in `main.ts` and by `convertVideo`). -/
def isVideoPresetCategory (c : PresetCategory) : Bool :=
  [PresetCategory.av1, PresetCategory.h264, PresetCategory.h265].contains c

/-- The `as 'av1' | 'h264' | 'h265'` cast in `main.ts` (only evaluated
under the video-preset guard, where the default branch is unreachable). -/
def videoCodecOf : PresetCategory → CodecFamily
  | .av1 => .av1
  | .h264 => .h264
  | .h265 => .h265
  | _ => .h264

/-- Outcome of the `start-conversion` handler in `main.ts`, as far as the
pre-flight encoder check is concerned: either it sends a
`gpu-encoder-error` and returns before `convertVideo` is invoked, or it
goes on to spawn the transcode via `convertVideo`. -/
inductive StartOutcome
  | preflightError (e : GPUEncoderError)
  | spawnedTranscode
deriving DecidableEq, Repr

/-- Pre-flight portion of the `start-conversion` IPC handler in
`main.ts`: for video presets with a non-cpu vendor it consults
`checkGPUEncoderSupport` and returns early (no spawn) on an unavailable
encoder. -/
def startConversionPreflight (encAvail : String → Bool) (preset : Preset)
    (gpu : GPUVendor) : StartOutcome :=
  let isVideoPreset := isVideoPresetCategory preset.category
  if isVideoPreset ∧ gpu ≠ .cpu then
    let codec := videoCodecOf preset.category
    let encoderCheck := checkGPUEncoderSupport encAvail gpu codec
    if encoderCheck.available = false then
      match encoderCheck.error with
      | some e => .preflightError e
      | none => .spawnedTranscode
    else .spawnedTranscode
  else .spawnedTranscode

/-- JS `\s` (restricted to the ASCII whitespace that can occur in the
transcoder's output lines). -/
def jsIsSpace (c : Char) : Bool :=
  c = ' ' || c = '\t' || c = '\n' || c = '\r' || c = '\x0b' || c = '\x0c'

/-- Character class `[\d.]`. -/
def isDigitDot (c : Char) : Bool := c.isDigit || c = '.'

/-- Character class `[\d:.]`. -/
def isDigitColonDot (c : Char) : Bool := c.isDigit || c = ':' || c = '.'

/-- JS `\w` (ASCII). -/
def isWordChar (c : Char) : Bool := c.isAlphanum || c = '_'

/-- Unanchored regex search: try the pattern matcher `f` at every start
position, leftmost match first (JS `String.prototype.match` semantics for
the patterns used here). -/
def searchAux {α : Type} (f : List Char → Option α) : List Char → Option α
  | [] => f []
  | c :: t =>
    match f (c :: t) with
    | some r => some r
    | none => searchAux f t

/-- Matcher at one position for a pattern `lit\s*(cls+)`, returning the
captured token.  The literal and the character classes used here are
disjoint from `\s`, so greedy matching without backtracking is exact. -/
def tryTokenAt (lit : List Char) (cls : Char → Bool) (l : List Char) :
    Option (List Char) :=
  if lit.isPrefixOf l then
    let r := (l.drop lit.length).dropWhile jsIsSpace
    let tok := r.takeWhile cls
    if tok.isEmpty then none else some tok
  else none

/-- Matcher at one position for `speed=\s*([\d.]+x)`: the digit run must
be followed by a literal `x` (no backtracking is possible since `x` is
not in `[\d.]`). -/
def trySpeedAt (l : List Char) : Option (List Char) :=
  let lit := "speed=".toList
  if lit.isPrefixOf l then
    let r := (l.drop lit.length).dropWhile jsIsSpace
    let tok := r.takeWhile isDigitDot
    if tok.isEmpty then none
    else
      match r.drop tok.length with
      | 'x' :: _ => some (tok ++ ['x'])
      | _ => none
  else none

/-- Backtracking over the `\s*` of the bitrate group `[\d.]+\s*\w+`,
longest whitespace run first, as a regex engine would. -/
def bitrateSpTry (rest : List Char) : Nat → Option (List Char)
  | 0 =>
    let w := rest.takeWhile isWordChar
    if w.isEmpty then none else some w
  | sp + 1 =>
    let afterSp := rest.drop (sp + 1)
    let w := afterSp.takeWhile isWordChar
    if w.isEmpty then bitrateSpTry rest sp else some (rest.take (sp + 1) ++ w)

/-- Backtracking over the `[\d.]+` of the bitrate group, longest digit
run first. -/
def bitrateDsTry (r : List Char) : Nat → Option (List Char)
  | 0 => none
  | k + 1 =>
    let rest := r.drop (k + 1)
    let spMax := (rest.takeWhile jsIsSpace).length
    match bitrateSpTry rest spMax with
    | some tail => some (r.take (k + 1) ++ tail)
    | none => bitrateDsTry r k

/-- Matcher at one position for `bitrate=\s*([\d.]+\s*\w+)`. -/
def tryBitrateAt (l : List Char) : Option (List Char) :=
  let lit := "bitrate=".toList
  if lit.isPrefixOf l then
    let r := (l.drop lit.length).dropWhile jsIsSpace
    bitrateDsTry r (r.takeWhile isDigitDot).length
  else none

/-- Value of an ASCII digit string. -/
def digitsToNat (l : List Char) : Nat :=
  l.foldl (fun a c => a * 10 + (c.toNat - 48)) 0

/-- JS `parseFloat` on the digit-and-dot strings that reach it here
(the captured tokens contain only `[\d.]`, so sign/exponent syntax never
occurs).  `none` models the NaN result. -/
def parseFloatJS (l : List Char) : Option ℚ :=
  let ip := l.takeWhile Char.isDigit
  let r := l.drop ip.length
  if ip.isEmpty then
    match r with
    | '.' :: r2 =>
      let fp := r2.takeWhile Char.isDigit
      if fp.isEmpty then none
      else some ((digitsToNat fp : ℚ) / (10 : ℚ) ^ fp.length)
    | _ => none
  else
    match r with
    | '.' :: r2 =>
      let fp := r2.takeWhile Char.isDigit
      some ((digitsToNat ip : ℚ) + (digitsToNat fp : ℚ) / (10 : ℚ) ^ fp.length)
    | _ => some (digitsToNat ip : ℚ)

/-- The `parseFloat(timeParts[k])`: an out-of-range index is `undefined`,
whose `parseFloat` is NaN. -/
def partFloat (parts : List (List Char)) (k : Nat) : Option ℚ :=
  match parts.get? k with
  | none => none
  | some p => parseFloatJS p

/-- The seconds computation of `parseProgress`:
`parseFloat(p[0])*3600 + parseFloat(p[1])*60 + parseFloat(p[2])` over the
`:`-split of the captured time token, with NaN propagation. -/
def timeTokenSeconds (tok : List Char) : Option ℚ :=
  let parts := tok.splitOn ':'
  match partFloat parts 0, partFloat parts 1, partFloat parts 2 with
  | some a, some b, some c => some (a * 3600 + b * 60 + c)
  | _, _, _ => none

/-- The `totalDuration > 0 ? Math.min(100, (seconds / totalDuration) * 100) : 0`
with NaN (`none`) propagation through the division and `Math.min`. -/
def progressPercent (seconds : Option ℚ) (totalDuration : ℚ) : Option ℚ :=
  if 0 < totalDuration then
    match seconds with
    | some s => some (min 100 (s / totalDuration * 100))
    | none => none
  else some 0

/-- The `ConversionProgress` record; the `number` fields that can be NaN are
`Option ℚ` with `none` for NaN. -/
structure ConversionProgress where
  percent : Option ℚ
  frame : Nat
  fps : Option ℚ
  time : String
  bitrate : String
  speed : String
deriving DecidableEq, Repr

/-- The `time=\s*([\d:.]+)` search of `parseProgress`. -/
def timeMatchOf (line : String) : Option (List Char) :=
  searchAux (tryTokenAt "time=".toList isDigitColonDot) line.toList

/-- The `parseProgress` from `ffmpeg.ts`: extract the five tokens; a line
without a `time=` token yields `null`. -/
def parseProgress (line : String) (totalDuration : ℚ) :
    Option ConversionProgress :=
  let chars := line.toList
  let frameMatch := searchAux (tryTokenAt "frame=".toList Char.isDigit) chars
  let fpsMatch := searchAux (tryTokenAt "fps=".toList isDigitDot) chars
  let timeMatch := timeMatchOf line
  let bitrateMatch := searchAux tryBitrateAt chars
  let speedMatch := searchAux trySpeedAt chars
  match timeMatch with
  | some tok =>
    let seconds := timeTokenSeconds tok
    some {
      percent := progressPercent seconds totalDuration
      frame := match frameMatch with | some d => digitsToNat d | none => 0
      fps := match fpsMatch with | some f => parseFloatJS f | none => some 0
      time := String.mk tok
      bitrate := match bitrateMatch with | some b => String.mk b | none => "N/A"
      speed := match speedMatch with | some s => String.mk s | none => "N/A" }
  | none => none

/-- Character class `[VASFXBD.]` of the capability-listing line regex. -/
def isCapFlagChar (c : Char) : Bool :=
  c = 'V' || c = 'A' || c = 'S' || c = 'F' || c = 'X' || c = 'B' || c = 'D' || c = '.'

/-- Anchored matcher for `^\s*[VASFXBD.]+\s+(\S+)` over one output line,
returning the captured capability name (the classes are pairwise
compatible with greedy matching: `[VASFXBD.]` and `\s` are disjoint, and
`\S` is the complement of `\s`). -/
def matchCapabilityLine (l : List Char) : Option (List Char) :=
  let r1 := l.dropWhile jsIsSpace
  let flags := r1.takeWhile isCapFlagChar
  if flags.isEmpty then none
  else
    let r2 := r1.drop flags.length
    let sp := r2.takeWhile jsIsSpace
    if sp.isEmpty then none
    else
      let r3 := r2.drop sp.length
      let nm := r3.takeWhile (fun c => !jsIsSpace c)
      if nm.isEmpty then none else some nm

/-- JS `Set.add` on the insertion-ordered string sets used by the
prober. -/
def setAdd (s : List String) (x : String) : List String :=
  if s.contains x then s else s ++ [x]

/-- The `close`-handler parse loop of `getAvailableEncoders` /
`getAvailableDecoders`: split the collected stdout on newlines and
collect one capability name per matching line. -/
def parseCapabilityList (output : String) : List String :=
  (output.toList.splitOn '\n').foldl
    (fun acc line =>
      match matchCapabilityLine line with
      | some nm => setAdd acc (String.mk nm)
      | none => acc) []

/-- How one invocation of the listing process ends: the `error` event
(binary could not be spawned) or the `close` event with the collected
stdout. -/
inductive ProbeOutcome
  | spawnFailed
  | closed (output : String)

/-- The `getAvailableEncoders` from `ffmpeg.ts`, with the module-level
`encoderCache` cell passed and returned explicitly.  Result components:
the resolved set, the cache cell afterwards, and whether the transcoding
binary was invoked (`false` on a cache hit).  On a spawn failure the
promise resolves to an empty set and the cache stays unset. -/
def getAvailableEncoders (cache : Option (List String))
    (outcome : ProbeOutcome) : List String × Option (List String) × Bool :=
  match cache with
  | some s => (s, some s, false)
  | none =>
    match outcome with
    | .spawnFailed => ([], none, true)
    | .closed output =>
      let s := parseCapabilityList output
      (s, some s, true)

/-- Process registry state: `currentProcess`, `outputPathByProcess` and
`canceledProcesses` from `ffmpeg.ts`, with process handles as naturals. -/
structure ConvState where
  currentProcess : Option Nat
  outputPathByProcess : List (Nat × String)
  canceledProcesses : List Nat
deriving DecidableEq, Repr

/-- The `Map.get` on the output-path registry. -/
def registryLookup (m : List (Nat × String)) (k : Nat) : Option String :=
  match m with
  | [] => none
  | e :: t => if e.1 = k then some e.2 else registryLookup t k

/-- The `Map.delete` on the output-path registry. -/
def registryErase (m : List (Nat × String)) (k : Nat) : List (Nat × String) :=
  match m with
  | [] => []
  | e :: t => if e.1 = k then registryErase t k else e :: registryErase t k

/-- The `Set.has` on the canceled-process set. -/
def setContains (s : List Nat) (k : Nat) : Bool :=
  match s with
  | [] => false
  | q :: t => q == k || setContains t k

/-- The `Set.delete` on the canceled-process set. -/
def setRemove (s : List Nat) (k : Nat) : List Nat :=
  match s with
  | [] => []
  | q :: t => if q = k then setRemove t k else q :: setRemove t k

/-- The `Set.add` on the canceled-process set. -/
def setAddNat (s : List Nat) (x : Nat) : List Nat :=
  if setContains s x then s else s ++ [x]

/-- The `fs.unlinkSync`, as a file-set update. -/
def fsDelete (fs : String → Bool) (p : String) : String → Bool :=
  fun q => if q = p then false else fs q

/-- The `close`-event handler of `convertVideo`: clear the registry for
this process, then resolve — with the cancellation sentinel (deleting the
registered output file if it exists, ignoring deletion failure) when the
run was marked canceled, with success on exit code 0, and with the
accumulated diagnostics otherwise.  `fs` is the file system as a set of
existing paths; `unlinkFails` models `fs.unlinkSync` throwing. -/
def handleClose (st : ConvState) (fs : String → Bool) (unlinkFails : Bool)
    (proc : Nat) (outputPath : String) (errorOutput : String) (code : Int) :
    ConversionResult × ConvState × (String → Bool) :=
  let cur := if st.currentProcess = some proc then none else st.currentProcess
  let outputToDelete := registryLookup st.outputPathByProcess proc
  let st' : ConvState :=
    { currentProcess := cur
      outputPathByProcess := registryErase st.outputPathByProcess proc
      canceledProcesses := setRemove st.canceledProcesses proc }
  let wasCanceled := setContains st.canceledProcesses proc
  if wasCanceled then
    let fs' :=
      match outputToDelete with
      | some p => if fs p then (if unlinkFails then fs else fsDelete fs p) else fs
      | none => fs
    ({ success := false, outputPath := outputPath,
       error := some "Conversion cancelled" }, st', fs')
  else if code = 0 then
    ({ success := true, outputPath := outputPath, error := none }, st', fs)
  else
    ({ success := false, outputPath := outputPath,
       error := some errorOutput }, st', fs)

/-- The `error`-event handler of `convertVideo` (spawn failure), with the
same registry cleanup and cancellation handling, resolving with the
underlying error message otherwise. -/
def handleError (st : ConvState) (fs : String → Bool) (unlinkFails : Bool)
    (proc : Nat) (outputPath : String) (errMessage : String) :
    ConversionResult × ConvState × (String → Bool) :=
  let cur := if st.currentProcess = some proc then none else st.currentProcess
  let outputToDelete := registryLookup st.outputPathByProcess proc
  let st' : ConvState :=
    { currentProcess := cur
      outputPathByProcess := registryErase st.outputPathByProcess proc
      canceledProcesses := setRemove st.canceledProcesses proc }
  let wasCanceled := setContains st.canceledProcesses proc
  if wasCanceled then
    let fs' :=
      match outputToDelete with
      | some p => if fs p then (if unlinkFails then fs else fsDelete fs p) else fs
      | none => fs
    ({ success := false, outputPath := outputPath,
       error := some "Conversion cancelled" }, st', fs')
  else
    ({ success := false, outputPath := outputPath,
       error := some errMessage }, st', fs)

/-- Observable steps of `cancelConversion`, in program order. -/
inductive CancelStep
  | markCanceled (p : Nat)
  | writeQuit
  | endStdin
  | sigterm
  | forceKillCall
  | armGraceTimer
deriving DecidableEq, Repr

/-- Kill signals `forceKillProcess` can deliver. -/
inductive KillAction
  | taskkillTree
  | sigkill
deriving DecidableEq, Repr

/-- The `forceKillProcess` from `ffmpeg.ts`: a no-op when the process has
already exited (`exitCode !== null`); on Windows with a known pid it uses
`taskkill /t /f`, falling back to `SIGKILL` if `spawnSync` throws; else
`SIGKILL`. -/
def forceKillProcess (platform : Platform) (exitCode : Option Int)
    (pid : Option Nat) (spawnSyncThrows : Bool) : List KillAction :=
  match exitCode with
  | some _ => []
  | none =>
    if platform = .win32 ∧ pid.isSome then
      .taskkillTree :: (if spawnSyncThrows then [.sigkill] else [])
    else [.sigkill]

/-- The `cancelConversion` from `ffmpeg.ts`: mark the active process
canceled, attempt the cooperative quit over stdin, send `SIGTERM`
(escalating in the catch when `force`), then either call the
unconditional kill directly (`force`) or arm the 1.5 s grace timer.
A call with no active process does nothing.  `stdinWriteThrows` and
`sigtermThrows` model the two `try`/`catch` blocks. -/
def cancelConversion (force : Bool) (st : ConvState)
    (stdinWriteThrows sigtermThrows : Bool) : ConvState × List CancelStep :=
  match st.currentProcess with
  | none => (st, [])
  | some p =>
    let st' := { st with canceledProcesses := setAddNat st.canceledProcesses p }
    let coop := CancelStep.markCanceled p ::
      (if stdinWriteThrows then [CancelStep.writeQuit]
       else [CancelStep.writeQuit, CancelStep.endStdin])
    let termSteps := CancelStep.sigterm ::
      (if sigtermThrows ∧ force then [CancelStep.forceKillCall] else [])
    if force then (st', coop ++ termSteps ++ [CancelStep.forceKillCall])
    else (st', coop ++ termSteps ++ [CancelStep.armGraceTimer])

/-- Node `path.basename(p)` (posix): last segment after trailing
separators are removed. -/
def pathBasenameRaw (p : String) : String :=
  let rev := p.toList.reverse.dropWhile (fun c => c == '/')
  String.mk (rev.takeWhile (fun c => !(c == '/'))).reverse

/-- Index of the last `.` in a character list. -/
def lastDotIdx (l : List Char) : Option Nat :=
  match l.reverse.findIdx? (fun c => c == '.') with
  | none => none
  | some j => some (l.length - 1 - j)

/-- Node `path.extname(p)` (posix): the suffix of the basename from its
last dot, except when that dot is the leading character (dotfile) or the
basename is `..`. -/
def pathExtname (p : String) : String :=
  let b := (pathBasenameRaw p).toList
  if b = ['.', '.'] then ""
  else
    match lastDotIdx b with
    | none => ""
    | some 0 => ""
    | some i => String.mk (b.drop i)

/-- Node `path.basename(p, ext)` (posix): basename with a trailing `ext`
removed when it is a proper suffix. -/
def pathBasename (p ext : String) : String :=
  let b := pathBasenameRaw p
  if ext ≠ "" ∧ b ≠ ext ∧ ext.toList.isSuffixOf b.toList then
    String.mk (b.toList.take (b.toList.length - ext.toList.length))
  else b

/-- Segment normalization of Node `path.normalize` (posix): drop empty
and `.` segments, resolve `..` against the stack (absolute paths drop
excess `..`). -/
def pathNormStack (isAbs : Bool) (segs : List String) : List String :=
  (segs.foldl
    (fun stack seg =>
      if seg = "" ∨ seg = "." then stack
      else if seg = ".." then
        match stack with
        | top :: rest => if top = ".." then seg :: stack else rest
        | [] => if isAbs then [] else [seg]
      else seg :: stack) []).reverse

/-- Node `path.join(a, b)` (posix): concatenate the non-empty parts with
`/` and normalize, preserving a trailing separator. -/
def pathJoin (a b : String) : String :=
  if a = "" ∧ b = "" then "."
  else
    let joined := if a = "" then b else if b = "" then a else a ++ "/" ++ b
    let chars := joined.toList
    let isAbs := chars.head? = some '/'
    let hasTrail := chars.getLast? = some '/'
    let segs := (chars.splitOn '/').map String.mk
    let core := String.intercalate "/" (pathNormStack isAbs segs)
    let base :=
      if isAbs then (if core = "" then "/" else "/" ++ core)
      else (if core = "" then "." else core)
    if hasTrail ∧ base ≠ "/" ∧ core ≠ "" then base ++ "/" else base

/-- Output-path construction of `convertVideo`:
`path.join(outputDir, basename(input, extname(input)) + "_converted." + preset.extension)`. -/
def computeOutputPath (inputPath outputDir : String) (preset : Preset) : String :=
  let inputBasename := pathBasename inputPath (pathExtname inputPath)
  pathJoin outputDir (inputBasename ++ "_converted." ++ preset.extension)

/-- Argument-vector construction of `convertVideo` (line 584 of the
source): the fixed global flags, then hardware decode args (only for
video-category presets), then the preset's own arguments. -/
def buildConvertArgs (platform : Platform) (decAvail : String → Bool)
    (vaapiDeviceExists : Bool) (inputPath outputDir : String) (preset : Preset)
    (gpu : GPUVendor) (inputCodec : Option String) : List String :=
  let outputPath := computeOutputPath inputPath outputDir preset
  let isVideoPreset := isVideoPresetCategory preset.category
  let decodeArgs :=
    if isVideoPreset then
      getHardwareDecodeArgs platform decAvail vaapiDeviceExists gpu inputCodec
    else []
  ["-y", "-progress", "pipe:1"] ++ decodeArgs ++
    preset.getArgs inputPath outputPath gpu

/-- Which terminal event ends the spawned process: `close` with an exit
code, or `error` (spawn failure) with a message. -/
inductive TerminalEvent
  | closed (code : Int)
  | spawnError (message : String)

/-- Terminal step of `convertVideo`: the output path computed at entry is
the one carried to whichever terminal handler fires. -/
def convertTerminalResult (st : ConvState) (fs : String → Bool)
    (unlinkFails : Bool) (proc : Nat) (inputPath outputDir : String)
    (preset : Preset) (errorOutput : String) (ev : TerminalEvent) :
    ConversionResult × ConvState × (String → Bool) :=
  let outputPath := computeOutputPath inputPath outputDir preset
  match ev with
  | .closed code => handleClose st fs unlinkFails proc outputPath errorOutput code
  | .spawnError msg => handleError st fs unlinkFails proc outputPath msg

/-! ## Helper lemmas -/

theorem gpuEncoders_ne_empty (c : CodecFamily) (g : GPUVendor) :
    gpuEncoders c g ≠ "" := by
  cases c <;> cases g <;> decide

theorem parseFloatJS_nonneg (l : List Char) (q : ℚ)
    (h : parseFloatJS l = some q) : 0 ≤ q := by
  unfold parseFloatJS at h
  dsimp only at h
  split at h
  · split at h
    · split at h
      · exact absurd h (by simp)
      · obtain rfl : _ = q := Option.some.inj h
        positivity
    · exact absurd h (by simp)
  · split at h
    · obtain rfl : _ = q := Option.some.inj h
      positivity
    · obtain rfl : _ = q := Option.some.inj h
      positivity

theorem partFloat_nonneg (parts : List (List Char)) (k : Nat) (q : ℚ)
    (h : partFloat parts k = some q) : 0 ≤ q := by
  unfold partFloat at h
  split at h
  · exact absurd h (by simp)
  · exact parseFloatJS_nonneg _ _ h

theorem timeTokenSeconds_nonneg (tok : List Char) (s : ℚ)
    (h : timeTokenSeconds tok = some s) : 0 ≤ s := by
  unfold timeTokenSeconds at h
  dsimp only at h
  split at h
  case _ a b c ha hb hc =>
    obtain rfl : _ = s := Option.some.inj h
    have ha' := partFloat_nonneg _ _ _ ha
    have hb' := partFloat_nonneg _ _ _ hb
    have hc' := partFloat_nonneg _ _ _ hc
    positivity
  · exact absurd h (by simp)

/-! ## Claim theorems -/

/-- C1 (amended): for every vendor other than `cpu`, every platform and
every normalized source codec, when the looked-up hardware decoder is
absent from the probed decoder capability set, `getHardwareDecodeArgs`
emits no decoder-specific flags: it returns the empty list on every
platform except macOS, where (vendor `apple`) it still returns the bare
`['-hwaccel', 'videotoolbox']` acceleration request. -/
theorem hardwareDecode_unavailable_fallback
    (platform : Platform) (gpu : GPUVendor) (codec : Option String)
    (n d : String) (decAvail : String → Bool) (vaapi : Bool)
    (hg : gpu ≠ .cpu) (hn : normalizeCodec codec = some n)
    (hl : lookupDecoder platform gpu n = some d) (hc : decAvail d = false) :
    getHardwareDecodeArgs platform decAvail vaapi gpu codec =
      if platform = .darwin then ["-hwaccel", "videotoolbox"] else [] := by
  cases platform <;> cases gpu <;>
    simp_all [getHardwareDecodeArgs, lookupDecoder]

/-- C1 counterexample: on macOS with the Apple vendor and source codec
`h264`, the looked-up decoder `h264_videotoolbox` is not in the (empty)
probed decoder set, yet the planner returns
`['-hwaccel', 'videotoolbox']`, not the empty argument list. -/
theorem hardwareDecode_unavailable_fallback_counterexample :
    normalizeCodec (some "h264") = some "h264" ∧
    lookupDecoder .darwin .apple "h264" = some "h264_videotoolbox" ∧
    (fun _ : String => false) "h264_videotoolbox" = false ∧
    getHardwareDecodeArgs .darwin (fun _ => false) false .apple (some "h264") =
      ["-hwaccel", "videotoolbox"] ∧
    getHardwareDecodeArgs .darwin (fun _ => false) false .apple (some "h264") ≠
      ([] : List String) := by
  refine ⟨by decide, by decide, rfl, by decide, by decide⟩

/-- C1 witness: the amended theorem at a concrete input (Windows,
NVIDIA, `h264`, empty decoder set) gives the empty argument list. -/
theorem hardwareDecode_unavailable_fallback_witness :
    GPUVendor.nvidia ≠ GPUVendor.cpu ∧
    normalizeCodec (some "h264") = some "h264" ∧
    lookupDecoder .win32 .nvidia "h264" = some "h264_cuvid" ∧
    (fun _ : String => false) "h264_cuvid" = false ∧
    getHardwareDecodeArgs .win32 (fun _ => false) false .nvidia (some "h264") =
      ([] : List String) := by
  refine ⟨by decide, by decide, by decide, rfl, ?_⟩
  have h := hardwareDecode_unavailable_fallback .win32 .nvidia (some "h264")
    "h264" "h264_cuvid" (fun _ => false) false (by decide) (by decide)
    (by decide) rfl
  simpa using h

/-- C2 (amended): for every input line whose extracted `time=` token
yields an actual number of seconds (its first three `:`-separated parts
all parse as numbers — NaN never arises), the percent field of the
progress sample is a number in `[0, 100]`: when `totalDuration > 0` it is
`min 100 (100 * seconds / totalDuration)` and when `totalDuration ≤ 0` it
is `0`.  (For a matching time token with fewer than three components the
seconds computation is NaN and so is the percent, see the
counterexample.) -/
theorem parseProgress_percent_bounds
    (line : String) (totalDuration : ℚ) (p : ConversionProgress) (s : ℚ)
    (hp : parseProgress line totalDuration = some p)
    (hs : (timeMatchOf line).bind timeTokenSeconds = some s) :
    ∃ q, p.percent = some q ∧ 0 ≤ q ∧ q ≤ 100 ∧
      (0 < totalDuration → q = min 100 (s / totalDuration * 100)) ∧
      (totalDuration ≤ 0 → q = 0) := by
  cases htm : timeMatchOf line with
  | none => rw [htm] at hs; simp at hs
  | some tok =>
    rw [htm] at hs
    simp only [Option.some_bind] at hs
    unfold parseProgress at hp
    dsimp only at hp
    rw [htm] at hp
    obtain rfl : p = _ := (Option.some.inj hp).symm
    have hs0 : 0 ≤ s := timeTokenSeconds_nonneg _ _ hs
    by_cases hd : 0 < totalDuration
    · refine ⟨min 100 (s / totalDuration * 100), ?_, ?_, min_le_left _ _,
        fun _ => rfl, fun h0 => absurd hd (not_lt.mpr h0)⟩
      · simp [progressPercent, hd, hs]
      · have hx : 0 ≤ s / totalDuration * 100 := by positivity
        exact le_min (by norm_num) hx
    · exact ⟨0, by simp [progressPercent, hd, hs], le_refl 0, by norm_num,
        fun h0 => absurd h0 hd, fun _ => rfl⟩

/-- C2 counterexample: the line `time=5` matches the time pattern but its
token has a single `:`-component, so the seconds computation is NaN
(`parseFloat` of the missing parts) and the returned sample's percent is
NaN (`none`), which is not a number in `[0, 100]`. -/
theorem parseProgress_percent_counterexample :
    ∃ p, parseProgress "time=5" 10 = some p ∧ p.percent = none := by
  refine ⟨_, rfl, by decide⟩

/-- C2 witness: the amended theorem on the line `time=00:00:30.00` with
total duration 120. -/
theorem parseProgress_percent_bounds_witness :
    ∃ s, (timeMatchOf "time=00:00:30.00").bind timeTokenSeconds = some s ∧
    ∃ p, parseProgress "time=00:00:30.00" 120 = some p ∧
    ∃ q, p.percent = some q ∧ 0 ≤ q ∧ q ≤ 100 := by
  refine ⟨_, rfl, _, rfl, ?_⟩
  obtain ⟨q, hq, h0, h1, _, _⟩ :=
    parseProgress_percent_bounds "time=00:00:30.00" 120 _ _ rfl rfl
  exact ⟨q, hq, h0, h1⟩

/-- C3 (amended): every non-null `GPUEncoderError` produced by
`parseGPUError` has `canRetryWithCPU = true` — including the
library-load (`driver_error`) kind, which the source also marks
retryable. -/
theorem parseGPUError_canRetry (e : String) (g : GPUVendor)
    (c : Option String) (r : GPUEncoderError)
    (h : parseGPUError e g c = some r) : r.canRetryWithCPU = true := by
  unfold parseGPUError at h
  dsimp only at h
  split_ifs at h <;>
    first
      | exact Option.noConfusion h
      | (obtain rfl : _ = r := Option.some.inj h; rfl)

/-- C3 counterexample: diagnostic text `DLL` classifies as the
library-load kind `driver_error`, and the result nevertheless has
`canRetryWithCPU = true`, contradicting the claim that the library-load
kind does not set it. -/
theorem parseGPUError_canRetry_counterexample :
    ∃ r, parseGPUError "DLL" .nvidia (some "h264") = some r ∧
      r.type = .driver_error ∧ r.canRetryWithCPU = true := by
  refine ⟨_, rfl, by decide, by decide⟩

/-- C3 witness: the amended theorem on the NVIDIA capability diagnostic
`No capable devices found`. -/
theorem parseGPUError_canRetry_witness :
    ∃ r, parseGPUError "No capable devices found" .nvidia (some "h264") =
      some r ∧ r.canRetryWithCPU = true := by
  refine ⟨_, rfl, ?_⟩
  exact parseGPUError_canRetry "No capable devices found" .nvidia
    (some "h264") _ rfl

/-- C4: the encoder resolver.  With vendor `cpu` the result is a fixed
record — available, the software encoder of the codec family, no error —
for every capability set (so the probe is never consulted).  For any
other vendor whose configured encoder name is absent from the probed
encoder set, the result is unavailable with kind `encoder_unavailable`,
`canRetryWithCPU = true`, and the NVIDIA+AV1 suggestion naming the
RTX 40-series minimum; and the `start-conversion` pipeline then returns
the pre-flight error without reaching the transcode spawn. -/
theorem checkGPUEncoderSupport_spec :
    (∀ (codec : CodecFamily) (encAvail : String → Bool),
      checkGPUEncoderSupport encAvail .cpu codec =
        { available := true, encoder := gpuEncoders codec .cpu, error := none }) ∧
    (∀ (gpu : GPUVendor) (codec : CodecFamily) (encAvail : String → Bool),
      gpu ≠ .cpu → encAvail (gpuEncoders codec gpu) = false →
      ∃ err, checkGPUEncoderSupport encAvail gpu codec =
        { available := false, encoder := gpuEncoders codec gpu,
          error := some err } ∧
        err.type = .encoder_unavailable ∧ err.canRetryWithCPU = true ∧
        err.suggestion =
          (if gpu = .nvidia ∧ codec = .av1 then
            "AV1 encoding requires an RTX 40-series GPU or newer. Try H.264 or H.265 instead, or use CPU encoding."
          else
            "Try using CPU encoding, or ensure your " ++ gpuName gpu ++
              " drivers are up to date.")) ∧
    (∀ (encAvail : String → Bool) (preset : Preset) (gpu : GPUVendor),
      isVideoPresetCategory preset.category = true → gpu ≠ .cpu →
      encAvail (gpuEncoders (videoCodecOf preset.category) gpu) = false →
      ∃ err, startConversionPreflight encAvail preset gpu =
        .preflightError err) := by
  refine ⟨fun codec encAvail => rfl, ?_, ?_⟩
  · intro gpu codec encAvail hg hc
    refine ⟨
      { type := .encoder_unavailable
        message := gpuName gpu ++ " " ++ (codecNames (codecKey codec)).getD "" ++
          " encoder not available"
        details := "The encoder \"" ++ gpuEncoders codec gpu ++
          "\" was not found in your FFmpeg installation. This could mean:\n• Your GPU drivers don\x27t support this codec\n• FFmpeg wasn\x27t compiled with " ++
          gpuName gpu ++ " support\n• The required libraries are missing"
        suggestion :=
          if gpu = .nvidia ∧ codec = .av1 then
            "AV1 encoding requires an RTX 40-series GPU or newer. Try H.264 or H.265 instead, or use CPU encoding."
          else "Try using CPU encoding, or ensure your " ++ gpuName gpu ++
            " drivers are up to date."
        canRetryWithCPU := true
        codec := some (codecKey codec)
        gpu := some gpu }, ?_, rfl, rfl, rfl⟩
    unfold checkGPUEncoderSupport
    rw [if_neg hg, if_neg (gpuEncoders_ne_empty codec gpu)]
    simp [hc]
  · intro encAvail preset gpu hv hg hc
    unfold startConversionPreflight
    dsimp only
    rw [if_pos ⟨hv, hg⟩]
    unfold checkGPUEncoderSupport
    rw [if_neg hg,
      if_neg (gpuEncoders_ne_empty (videoCodecOf preset.category) gpu)]
    simp [hc]

/-- C4 witness: the three parts at concrete inputs — the cpu result for
`h264`, the NVIDIA+AV1 resolver failure under an empty capability set,
and the pre-flight short-circuit for an AV1 preset. -/
theorem checkGPUEncoderSupport_spec_witness :
    checkGPUEncoderSupport (fun _ => false) .cpu .h264 =
      { available := true, encoder := "libx264", error := none } ∧
    (∃ err, checkGPUEncoderSupport (fun _ => false) .nvidia .av1 =
      { available := false, encoder := "av1_nvenc", error := some err } ∧
      err.type = .encoder_unavailable ∧ err.canRetryWithCPU = true ∧
      err.suggestion =
        "AV1 encoding requires an RTX 40-series GPU or newer. Try H.264 or H.265 instead, or use CPU encoding.") ∧
    (∃ err, startConversionPreflight (fun _ => false)
      { id := "av1-balanced", name := "AV1 - Balanced", description := "",
        category := .av1, extension := "mp4", getArgs := fun _ _ _ => [] }
      .nvidia = .preflightError err) := by
  obtain ⟨h1, h2, h3⟩ := checkGPUEncoderSupport_spec
  refine ⟨h1 .h264 (fun _ => false), ?_, ?_⟩
  · obtain ⟨err, he, ht, hr, hs⟩ :=
      h2 .nvidia .av1 (fun _ => false) (by decide) rfl
    exact ⟨err, he, ht, hr, by simpa using hs⟩
  · exact h3 (fun _ => false)
      { id := "av1-balanced", name := "AV1 - Balanced", description := "",
        category := .av1, extension := "mp4", getArgs := fun _ _ _ => [] }
      .nvidia (by decide) (by decide) rfl

theorem registryLookup_erase (m : List (Nat × String)) (k : Nat) :
    registryLookup (registryErase m k) k = none := by
  induction m with
  | nil => rfl
  | cons e t ih =>
    by_cases he : e.1 = k <;> simp [registryErase, registryLookup, he, ih]

theorem setContains_remove (s : List Nat) (k : Nat) :
    setContains (setRemove s k) k = false := by
  induction s with
  | nil => rfl
  | cons q t ih =>
    by_cases hq : q = k <;> simp [setRemove, setContains, hq, ih]

/-- C5: when a run was marked canceled before its process terminated,
both terminal handlers report `success = false` with the sentinel
`"Conversion cancelled"` irrespective of the exit code; the registered
output file is deleted when it exists and deletion succeeds; and a
deletion failure leaves the terminal result unchanged. -/
theorem canceled_terminal_spec (st : ConvState) (fs : String → Bool)
    (uf : Bool) (proc : Nat) (outputPath errorOutput errMsg : String)
    (code : Int) (h : setContains st.canceledProcesses proc = true) :
    (handleClose st fs uf proc outputPath errorOutput code).1 =
      { success := false, outputPath := outputPath,
        error := some "Conversion cancelled" } ∧
    (handleError st fs uf proc outputPath errMsg).1 =
      { success := false, outputPath := outputPath,
        error := some "Conversion cancelled" } ∧
    (∀ p, registryLookup st.outputPathByProcess proc = some p →
      fs p = true → uf = false →
      (handleClose st fs uf proc outputPath errorOutput code).2.2 p = false) ∧
    (handleClose st fs true proc outputPath errorOutput code).1 =
      (handleClose st fs false proc outputPath errorOutput code).1 := by
  refine ⟨?_, ?_, ?_, ?_⟩
  · simp [handleClose, h]
  · simp [handleError, h]
  · intro p hp hfs hu
    subst hu
    simp [handleClose, h, hp, hfs, fsDelete]
  · simp [handleClose, h]

/-- C5 witness: a concrete canceled run exiting with code 0 still
reports the sentinel and its leftover output file is removed. -/
theorem canceled_terminal_spec_witness :
    setContains ([7] : List Nat) 7 = true ∧
    registryLookup [(7, "/out/v_converted.mp4")] 7 =
      some "/out/v_converted.mp4" ∧
    (fun q => q == "/out/v_converted.mp4") "/out/v_converted.mp4" = true ∧
    (handleClose ⟨some 7, [(7, "/out/v_converted.mp4")], [7]⟩
      (fun q => q == "/out/v_converted.mp4") false 7 "/out/v_converted.mp4"
      "" 0).1 =
      { success := false, outputPath := "/out/v_converted.mp4",
        error := some "Conversion cancelled" } ∧
    (handleClose ⟨some 7, [(7, "/out/v_converted.mp4")], [7]⟩
      (fun q => q == "/out/v_converted.mp4") false 7 "/out/v_converted.mp4"
      "" 0).2.2 "/out/v_converted.mp4" = false := by
  have h := canceled_terminal_spec ⟨some 7, [(7, "/out/v_converted.mp4")], [7]⟩
    (fun q => q == "/out/v_converted.mp4") false 7 "/out/v_converted.mp4"
    "" "spawn ENOENT" 0 (by decide)
  exact ⟨by decide, by decide, by decide, h.1,
    h.2.2.1 "/out/v_converted.mp4" (by decide) (by decide) rfl⟩

/-- C6: after either terminal handler runs, the registry holds nothing
for that process — `currentProcess` no longer points at it, its
output-path entry and canceled flag are gone — and a `cancelConversion`
call with no active process leaves the state unchanged and performs no
steps (it cannot throw). -/
theorem terminal_clears_registry (st : ConvState) (fs : String → Bool)
    (uf : Bool) (proc : Nat) (op eo msg : String) (code : Int) :
    ((handleClose st fs uf proc op eo code).2.1.currentProcess ≠ some proc ∧
      registryLookup
        (handleClose st fs uf proc op eo code).2.1.outputPathByProcess proc =
        none ∧
      setContains
        (handleClose st fs uf proc op eo code).2.1.canceledProcesses proc =
        false) ∧
    ((handleError st fs uf proc op msg).2.1.currentProcess ≠ some proc ∧
      registryLookup
        (handleError st fs uf proc op msg).2.1.outputPathByProcess proc =
        none ∧
      setContains
        (handleError st fs uf proc op msg).2.1.canceledProcesses proc =
        false) ∧
    (∀ (force a b : Bool) (m : List (Nat × String)) (c : List Nat),
      cancelConversion force ⟨none, m, c⟩ a b = (⟨none, m, c⟩, [])) := by
  refine ⟨⟨?_, ?_, ?_⟩, ⟨?_, ?_, ?_⟩, fun force a b m c => rfl⟩ <;>
    simp only [handleClose, handleError] <;> split_ifs <;>
    simp_all [registryLookup_erase, setContains_remove]

/-- C6 witness: the registry-clearing theorem at a concrete terminated
run, plus the no-op cancel on an empty registry. -/
theorem terminal_clears_registry_witness :
    (handleClose ⟨some 3, [(3, "/o/a_converted.mp4")], [3]⟩ (fun _ => false)
      false 3 "/o/a_converted.mp4" "" 0).2.1.currentProcess ≠ some 3 ∧
    registryLookup
      (handleClose ⟨some 3, [(3, "/o/a_converted.mp4")], [3]⟩
        (fun _ => false) false 3 "/o/a_converted.mp4" "" 0).2.1.outputPathByProcess
      3 = none ∧
    setContains
      (handleClose ⟨some 3, [(3, "/o/a_converted.mp4")], [3]⟩
        (fun _ => false) false 3 "/o/a_converted.mp4" "" 0).2.1.canceledProcesses
      3 = false ∧
    cancelConversion false ⟨none, [], []⟩ false false = (⟨none, [], []⟩, []) := by
  have h := terminal_clears_registry ⟨some 3, [(3, "/o/a_converted.mp4")], [3]⟩
    (fun _ => false) false 3 "/o/a_converted.mp4" "" "m" 0
  exact ⟨h.1.1, h.1.2.1, h.1.2.2, h.2.2 false false false [] []⟩

/-- C7: for every conversion request the argument vector handed to the
transcoding binary is exactly `[-y, -progress, pipe:1]`, then the
hardware-decode arguments — present only when the preset category is a
video codec family and the empty list otherwise — then the
preset-provided arguments. -/
theorem convertArgs_shape (platform : Platform) (decAvail : String → Bool)
    (vaapi : Bool) (inputPath outputDir : String) (preset : Preset)
    (gpu : GPUVendor) (inputCodec : Option String) :
    buildConvertArgs platform decAvail vaapi inputPath outputDir preset gpu
        inputCodec =
      ["-y", "-progress", "pipe:1"] ++
        (if isVideoPresetCategory preset.category then
          getHardwareDecodeArgs platform decAvail vaapi gpu inputCodec
        else []) ++
        preset.getArgs inputPath (computeOutputPath inputPath outputDir preset)
          gpu := rfl

/-- C8: `cancel(force := true)` performs the cooperative attempt (mark
canceled, quit over stdin, `SIGTERM`) and then calls the unconditional
kill immediately, never arming the grace-period timer; and
`forceKillProcess` delivers no signal at all when the target's exit code
is already present. -/
theorem cancelForce_spec :
    (∀ (p : Nat) (m : List (Nat × String)) (c : List Nat) (stdinT : Bool),
      cancelConversion true ⟨some p, m, c⟩ stdinT false =
        (⟨some p, m, setAddNat c p⟩,
          CancelStep.markCanceled p ::
            (if stdinT then [CancelStep.writeQuit]
             else [CancelStep.writeQuit, CancelStep.endStdin]) ++
            [CancelStep.sigterm, CancelStep.forceKillCall])) ∧
    (∀ (st : ConvState) (a b : Bool),
      CancelStep.armGraceTimer ∉ (cancelConversion true st a b).2) ∧
    (∀ (platform : Platform) (code : Int) (pid : Option Nat) (t : Bool),
      forceKillProcess platform (some code) pid t = []) := by
  refine ⟨?_, ?_, fun platform code pid t => rfl⟩
  · intro p m c stdinT
    cases stdinT <;> rfl
  · intro st a b
    obtain ⟨cur, m, c⟩ := st
    cases cur <;> cases a <;> cases b <;> simp [cancelConversion]

/-- C8 witness: forced cancellation of a concrete active process, and
the no-op escalation on an already-exited process. -/
theorem cancelForce_spec_witness :
    cancelConversion true ⟨some 5, [], []⟩ false false =
      (⟨some 5, [], [5]⟩,
        [CancelStep.markCanceled 5, CancelStep.writeQuit,
         CancelStep.endStdin, CancelStep.sigterm,
         CancelStep.forceKillCall]) ∧
    CancelStep.armGraceTimer ∉
      (cancelConversion true ⟨some 5, [], []⟩ false false).2 ∧
    forceKillProcess .win32 (some 0) (some 42) false = [] := by
  have h := cancelForce_spec
  exact ⟨h.1 5 [] [] false, h.2.1 ⟨some 5, [], []⟩ false false,
    h.2.2 .win32 0 (some 42) false⟩

/-- C9: `getAvailableEncoders` resolves to the empty set — not an
error — when the transcoding binary cannot be invoked (and caches
nothing); and once a listing completes, the parsed set is cached so that
every subsequent call returns that same set without invoking the binary
again. -/
theorem encoderProbe_spec :
    getAvailableEncoders none .spawnFailed = ([], none, true) ∧
    (∀ output : String,
      (getAvailableEncoders none (.closed output)).1 =
        parseCapabilityList output ∧
      (getAvailableEncoders none (.closed output)).2.1 =
        some (parseCapabilityList output) ∧
      ∀ outcome,
        getAvailableEncoders (getAvailableEncoders none (.closed output)).2.1
            outcome =
          ((getAvailableEncoders none (.closed output)).1,
            (getAvailableEncoders none (.closed output)).2.1, false)) :=
  ⟨rfl, fun _ => ⟨rfl, rfl, fun _ => rfl⟩⟩

/-- C10: the output path is the output directory joined with the input
basename (original extension removed) followed by `_converted.` and the
preset's extension, and the terminal `ConversionResult` carries exactly
that path through every terminal outcome — success, failure and
cancellation alike. -/
theorem outputPath_spec (st : ConvState) (fs : String → Bool) (uf : Bool)
    (proc : Nat) (inputPath outputDir : String) (preset : Preset)
    (errorOutput : String) (ev : TerminalEvent) :
    computeOutputPath inputPath outputDir preset =
      pathJoin outputDir
        (pathBasename inputPath (pathExtname inputPath) ++ "_converted." ++
          preset.extension) ∧
    (convertTerminalResult st fs uf proc inputPath outputDir preset
        errorOutput ev).1.outputPath =
      pathJoin outputDir
        (pathBasename inputPath (pathExtname inputPath) ++ "_converted." ++
          preset.extension) := by
  refine ⟨rfl, ?_⟩
  cases ev <;> simp only [convertTerminalResult, handleClose, handleError] <;>
    split_ifs <;> rfl

end Conv2
